import Mathlib

/-!
Verification of the pyqcf market-data, valuation and settlement layer.

The Python sources are shallowly embedded: pandas `DataFrame`s holding the
tenor/value columns of a curve become lists of rows, Python `dict`s become
insertion-ordered association lists (`dictSet` reproduces `d[k] = v`:
update-in-place for a present key, append for an absent one), float
arithmetic is read as exact arithmetic (`ℚ`, and `ℝ` where `math.exp`
occurs), and a raised exception becomes an `Except`/`Option` error value.
-/

namespace Pyqcf

/-- Python dict iteration/storage is insertion ordered; a dict is embedded as
an association list whose keys are unique in any state reachable from a
constructor. -/
def lookupA {α β : Type} [DecidableEq α] (l : List (α × β)) (k : α) : Option β :=
  (l.find? (fun p => decide (p.1 = k))).map (·.2)

/-- Assignment `d[k] = v` on a Python dict: replaces the value at the first occurrence of
`k`, or appends `(k, v)` when `k` is absent. -/
def dictSet {α β : Type} [DecidableEq α] (k : α) (v : β) : List (α × β) → List (α × β)
  | [] => [(k, v)]
  | p :: rest => if p.1 = k then (p.1, v) :: rest else p :: dictSet k v rest

/-- The key list of an association list (`dict.keys()`). -/
def keys {α β : Type} (l : List (α × β)) : List α :=
  l.map Prod.fst

theorem lookupA_nil {α β : Type} [DecidableEq α] (k : α) :
    lookupA ([] : List (α × β)) k = none := rfl

theorem lookupA_cons {α β : Type} [DecidableEq α] (p : α × β) (l : List (α × β)) (k : α) :
    lookupA (p :: l) k = if p.1 = k then some p.2 else lookupA l k := by
  by_cases h : p.1 = k <;> simp [lookupA, List.find?, h]

theorem lookupA_dictSet_self {α β : Type} [DecidableEq α] (l : List (α × β)) (k : α) (v : β) :
    lookupA (dictSet k v l) k = some v := by
  induction l with
  | nil => simp [dictSet, lookupA_cons]
  | cons p rest ih =>
    by_cases h : p.1 = k
    · simp [dictSet, h, lookupA_cons]
    · simp [dictSet, h, lookupA_cons, ih]

theorem lookupA_dictSet_ne {α β : Type} [DecidableEq α] (l : List (α × β)) (k k' : α) (v : β)
    (h : k' ≠ k) : lookupA (dictSet k v l) k' = lookupA l k' := by
  have hne : ¬k = k' := fun he => h he.symm
  induction l with
  | nil => simp [dictSet, lookupA_cons, lookupA_nil, hne]
  | cons p rest ih =>
    by_cases hp : p.1 = k
    · subst hp
      simp [dictSet, lookupA_cons, hne]
    · simp [dictSet, hp, lookupA_cons, ih]

theorem mem_keys_of_mem {α β : Type} {l : List (α × β)} {p : α × β} (h : p ∈ l) :
    p.1 ∈ keys l := by
  simp only [keys, List.mem_map]
  exact ⟨p, h, rfl⟩

theorem exists_mem_of_mem_keys {α β : Type} {l : List (α × β)} {k : α} (h : k ∈ keys l) :
    ∃ v, (k, v) ∈ l := by
  simp only [keys, List.mem_map] at h
  obtain ⟨p, hp, hk⟩ := h
  exact ⟨p.2, by simpa [← hk] using hp⟩

theorem lookupA_eq_of_mem {α β : Type} [DecidableEq α] {l : List (α × β)} {k : α} {v : β}
    (hnd : (keys l).Nodup) (h : (k, v) ∈ l) : lookupA l k = some v := by
  induction l with
  | nil => cases h
  | cons p rest ih =>
    simp only [keys, List.map_cons, List.nodup_cons] at hnd
    rcases List.mem_cons.mp h with h1 | h1
    · rw [← h1]
      simp [lookupA_cons]
    · have hk : k ∈ keys rest := mem_keys_of_mem h1
      have hne : p.1 ≠ k := fun he => hnd.1 (he ▸ hk)
      rw [lookupA_cons, if_neg hne]
      exact ih hnd.2 h1

/-- The write loop shared by the scenario methods of `CurveHandler` and
`FxRateIndexHandler`: `for k in base: self._scenario[k] = f(k, base[k])`. -/
def mapLoop {β : Type} (f : String → β → β) :
    List (String × β) → List (String × β) → List (String × β)
  | [], scen => scen
  | (c, e) :: rest, scen => mapLoop f rest (dictSet c (f c e) scen)

/-- The write loop of the scenario methods that can raise mid-iteration
(`move_tenor_of_curve`, `apply_additive_scenario`): the first raised error
aborts the loop, leaving the writes made so far committed. -/
def exceptLoop {β : Type} (g : String → β → Except String β) :
    List (String × β) → List (String × β) → List (String × β) × Option String
  | [], scen => (scen, none)
  | (c, e) :: rest, scen =>
    match g c e with
    | .ok e2 => exceptLoop g rest (dictSet c e2 scen)
    | .error msg => (scen, some msg)

theorem mapLoop_lookup_not_mem {β : Type} (f : String → β → β)
    (entries : List (String × β)) (scen : List (String × β)) (c : String)
    (h : c ∉ keys entries) :
    lookupA (mapLoop f entries scen) c = lookupA scen c := by
  induction entries generalizing scen with
  | nil => rfl
  | cons p rest ih =>
    simp only [keys, List.map_cons, List.mem_cons, not_or] at h
    rw [mapLoop, ih _ h.2, lookupA_dictSet_ne _ _ _ _ h.1]

theorem mapLoop_lookup_mem {β : Type} (f : String → β → β)
    (entries : List (String × β)) (scen : List (String × β)) (c : String) (e : β)
    (hnd : (keys entries).Nodup) (hm : (c, e) ∈ entries) :
    lookupA (mapLoop f entries scen) c = some (f c e) := by
  induction entries generalizing scen with
  | nil => cases hm
  | cons p rest ih =>
    simp only [keys, List.map_cons, List.nodup_cons] at hnd
    rcases List.mem_cons.mp hm with h1 | h1
    · rw [← h1, mapLoop]
      have hout : c ∉ keys rest := by
        have := hnd.1
        rw [← h1] at this
        exact this
      rw [mapLoop_lookup_not_mem _ _ _ _ hout, lookupA_dictSet_self]
    · rw [mapLoop]
      exact ih _ hnd.2 h1

theorem exceptLoop_eq_mapLoop {β : Type} (g : String → β → Except String β)
    (f : String → β → β) (entries : List (String × β)) (scen : List (String × β))
    (h : ∀ p ∈ entries, g p.1 p.2 = .ok (f p.1 p.2)) :
    exceptLoop g entries scen = (mapLoop f entries scen, none) := by
  induction entries generalizing scen with
  | nil => rfl
  | cons p rest ih =>
    have hp := h p (List.mem_cons_self _ _)
    rw [exceptLoop, mapLoop]
    cases p with
    | mk c e =>
      simp only at hp
      rw [hp]
      exact ih _ (fun q hq => h q (List.mem_cons_of_mem _ hq))

theorem exceptLoop_append_error {β : Type} (g : String → β → Except String β)
    (f : String → β → β) (pre : List (String × β)) (cb : String) (eb : β)
    (post : List (String × β)) (scen : List (String × β)) (msg : String)
    (hpre : ∀ p ∈ pre, g p.1 p.2 = .ok (f p.1 p.2)) (hb : g cb eb = .error msg) :
    exceptLoop g (pre ++ (cb, eb) :: post) scen = (mapLoop f pre scen, some msg) := by
  induction pre generalizing scen with
  | nil =>
    rw [List.nil_append, exceptLoop, hb, mapLoop]
  | cons p rest ih =>
    have hp := hpre p (List.mem_cons_self _ _)
    rw [List.cons_append, exceptLoop, mapLoop]
    cases p with
    | mk c e =>
      simp only at hp
      rw [hp]
      exact ih _ (fun q hq => hpre q (List.mem_cons_of_mem _ hq))

/-- Source `wrappers.py`, `class YearFraction(StrEnum)`: the day-count conventions
available in the rate library. -/
inductive YearFraction : Type
  | act30
  | act360
  | act365
  | yf30360
  | yf3030
deriving DecidableEq, Repr

/-- Source `wrappers.py`, `class WealthFactor(Enum)`: the compounding conventions
available in the rate library. -/
inductive WealthFactor : Type
  | com
  | lin
  | con
deriving DecidableEq, Repr

/-- Source `wrappers.py`, `class Currency(str, Enum)`. -/
inductive Currency : Type
  | AUD | BRL | CAD | CHF | CLF | CLP | CNY | COP | DKK
  | EUR | GBP | HKD | JPY | MXN | NOK | PEN | SEK | USD
deriving DecidableEq, Repr

/-- Source `wrappers.py`, `@dataclass class Tenor`. -/
structure Tenor where
  agnos : Nat
  meses : Nat
  dias : Nat
deriving DecidableEq, Repr

/-- Source `Tenor.__hash__`: `dias + meses * 30 + agnos * 12 * 30`; it is also the
sort key of `Tenor.__lt__`. -/
def Tenor.sortKey (t : Tenor) : Nat :=
  t.dias + t.meses * 30 + t.agnos * 12 * 30

/-- Digit-and-unit scanner for tenor strings such as `"18M"` or `"1Y6M"`. -/
def parseTenorAux : List Char → Nat → Tenor → Tenor
  | [], _, acc => acc
  | c :: cs, num, acc =>
    if c.isDigit then parseTenorAux cs (num * 10 + (c.toNat - 48)) acc
    else if c = 'Y' ∨ c = 'y' then parseTenorAux cs 0 { acc with agnos := acc.agnos + num }
    else if c = 'M' ∨ c = 'm' then parseTenorAux cs 0 { acc with meses := acc.meses + num }
    else if c = 'D' ∨ c = 'd' then parseTenorAux cs 0 { acc with dias := acc.dias + num }
    else parseTenorAux cs num acc

/-- Source `wrappers.build_tenor_from_str`. Modelled from the spec: the string is
parsed by the external calendar/rate library (`qcf.Tenor`; spec §6, tenor
parsing, `"6M"` → 0y/6m/0d); the wrapper repacks the parsed years, months
and days into a `Tenor`. -/
def build_tenor_from_str (s : String) : Tenor :=
  parseTenorAux s.toList 0 ⟨0, 0, 0⟩

/-- The tenor/value `DataFrame` held for each curve: one row per vertex,
column `tenor` (days) and column `value` (rate). -/
structure CurveData where
  rows : List (Int × ℚ)
deriving DecidableEq, Repr

/-- A `qcf.ZeroCouponCurve` is determined by the vertices it interpolates and
the rate convention (`QCInterestRate`'s year fraction and wealth factor) it
carries; interpolation itself is the external library's. -/
structure ZeroCouponCurve where
  tenors : List Int
  rates : List ℚ
  yf : YearFraction
  wf : WealthFactor
deriving DecidableEq, Repr

/-- Source `market_data.build_zero_coupon_curve`: packs the vertices and the rate
convention into a `qcf.ZeroCouponCurve` (linear interpolator). -/
def build_zero_coupon_curve (plazos : List Int) (tasas : List ℚ)
    (yf : YearFraction) (wf : WealthFactor) : ZeroCouponCurve :=
  { tenors := plazos, rates := tasas, yf := yf, wf := wf }

/-- The value stored per curve code: the `(DataFrame, qcf.ZeroCouponCurve)`
tuple. -/
abbrev CurveEntry := CurveData × ZeroCouponCurve

/-- Source `market_data.CurveHandler`: base curves and the private scenario view. -/
structure CurveHandler where
  zero_coupon_curves : List (String × CurveEntry)
  scenario : List (String × CurveEntry)
deriving DecidableEq, Repr

/-- Source `CurveHandler.__init__`: `self._scenario = self.zero_coupon_curves.copy()`. -/
def CurveHandler.init (curves : List (String × CurveEntry)) : CurveHandler :=
  { zero_coupon_curves := curves, scenario := curves }

/-- The body of `add_parallel_shift`'s loop for one curve: a named curve gets
every rate bumped by `shift` and its interpolant rebuilt with the base
curve's rate convention (`get_qc_interest_rate_at(0)`); an unnamed curve is
aliased unchanged. -/
def parallelStep (shift : ℚ) (curves : List String) (crv : String) (e : CurveEntry) :
    CurveEntry :=
  if crv ∈ curves then
    let df : CurveData := { rows := e.1.rows.map (fun r => (r.1, r.2 + shift)) }
    (df, build_zero_coupon_curve (df.rows.map Prod.fst) (df.rows.map Prod.snd) e.2.yf e.2.wf)
  else e

/-- Source `CurveHandler.add_parallel_shift`. -/
def CurveHandler.add_parallel_shift (shift : ℚ) (curves : List String)
    (h : CurveHandler) : CurveHandler :=
  { h with scenario := mapLoop (parallelStep shift curves) h.zero_coupon_curves h.scenario }

/-- The body of `move_tenor_of_curve`'s loop for one curve: on the named
curve, `df.at[index, "value"] += shift` raises when the row label does not
exist; other curves are aliased unchanged. -/
def moveTenorStep (shift : ℚ) (index : Nat) (curve : String) (crv : String)
    (e : CurveEntry) : Except String CurveEntry :=
  if crv = curve then
    if index < e.1.rows.length then
      let df : CurveData :=
        { rows := e.1.rows.set index
            (((e.1.rows.getD index (0, 0)).1), (e.1.rows.getD index (0, 0)).2 + shift) }
      .ok (df, build_zero_coupon_curve (df.rows.map Prod.fst) (df.rows.map Prod.snd) e.2.yf e.2.wf)
    else .error curve
  else .ok e

/-- Source `CurveHandler.move_tenor_of_curve`; the `Option String` is the raised
exception, carrying the offending curve code. -/
def CurveHandler.move_tenor_of_curve (shift : ℚ) (index : Nat) (curve : String)
    (h : CurveHandler) : CurveHandler × Option String :=
  let r := exceptLoop (moveTenorStep shift index curve) h.zero_coupon_curves h.scenario
  ({ h with scenario := r.1 }, r.2)

/-- Stable insertion into a list already sorted by the parsed-tenor key,
matching Python's stable `sorted`. -/
def insertShift (x : String × ℚ) : List (String × ℚ) → List (String × ℚ)
  | [] => [x]
  | y :: ys =>
    if (build_tenor_from_str x.1).sortKey ≤ (build_tenor_from_str y.1).sortKey then
      x :: y :: ys
    else y :: insertShift x ys

/-- Source `sorted(scenario.items(), key=lambda item: qcw.build_tenor_from_str(item[0]))`. -/
def sortShifts : List (String × ℚ) → List (String × ℚ)
  | [] => []
  | x :: xs => insertShift x (sortShifts xs)

/-- The body of `apply_additive_scenario`'s loop for one curve: a curve named
in the scenario map is rejected when the scenario's vertex count differs
from the curve's, otherwise each rate is bumped by the positionally matching
entry of the tenor-sorted shift list; an unnamed curve is aliased
unchanged. -/
def additiveStep (scens : List (String × List (String × ℚ))) (curve : String)
    (e : CurveEntry) : Except String CurveEntry :=
  match lookupA scens curve with
  | none => .ok e
  | some scenario =>
    if scenario.length ≠ e.1.rows.length then .error curve
    else
      let to_add := (sortShifts scenario).map Prod.snd
      let df : CurveData :=
        { rows := List.zipWith (fun r a => (r.1, r.2 + a)) e.1.rows to_add }
      .ok (df, build_zero_coupon_curve (df.rows.map Prod.fst) (df.rows.map Prod.snd) e.2.yf e.2.wf)

/-- The value `additiveStep` commits when it does not raise. -/
def additiveOkEntry (scens : List (String × List (String × ℚ))) (curve : String)
    (e : CurveEntry) : CurveEntry :=
  match lookupA scens curve with
  | none => e
  | some scenario =>
    let to_add := (sortShifts scenario).map Prod.snd
    let df : CurveData :=
      { rows := List.zipWith (fun r a => (r.1, r.2 + a)) e.1.rows to_add }
    (df, build_zero_coupon_curve (df.rows.map Prod.fst) (df.rows.map Prod.snd) e.2.yf e.2.wf)

/-- Source `CurveHandler.apply_additive_scenario`; the `Option String` is the raised
`ValueError`, carrying the offending curve code. -/
def CurveHandler.apply_additive_scenario (scens : List (String × List (String × ℚ)))
    (h : CurveHandler) : CurveHandler × Option String :=
  let r := exceptLoop (additiveStep scens) h.zero_coupon_curves h.scenario
  ({ h with scenario := r.1 }, r.2)

theorem additiveStep_ok_of_size (scens : List (String × List (String × ℚ)))
    (curve : String) (e : CurveEntry)
    (h : ∀ sc, lookupA scens curve = some sc → sc.length = e.1.rows.length) :
    additiveStep scens curve e = .ok (additiveOkEntry scens curve e) := by
  unfold additiveStep additiveOkEntry
  cases hl : lookupA scens curve with
  | none => rfl
  | some sc => simp [h sc hl]

/-- Source `market_data.FxRateIndexHandler`: base FX index values and the private
scenario view. -/
structure FxRateIndexHandler where
  fx_rate_index_values : List (String × ℝ)
  scenario : List (String × ℝ)

/-- Source `FxRateIndexHandler.__init__`:
`self._scenario = {k: v for k, v in self.fx_rate_index_values.items()}`. -/
def FxRateIndexHandler.init (vals : List (String × ℝ)) : FxRateIndexHandler :=
  { fx_rate_index_values := vals, scenario := vals }

/-- The body of `apply_exp_scenario`'s loop for one index:
`retorno = scenario.get(key, 0.0); self._scenario[key] = value * exp(retorno)`. -/
noncomputable def expStep (scen : List (String × ℝ)) (key : String) (value : ℝ) : ℝ :=
  value * Real.exp ((lookupA scen key).getD 0)

/-- Source `FxRateIndexHandler.apply_exp_scenario`. -/
noncomputable def FxRateIndexHandler.apply_exp_scenario (scen : List (String × ℝ))
    (h : FxRateIndexHandler) : FxRateIndexHandler :=
  { h with scenario := mapLoop (expStep scen) h.fx_rate_index_values h.scenario }

/-- Source `FxRateIndexHandler.get_fx_rate_index_value`: unknown codes raise; the
flag selects the scenario or the base value. -/
def FxRateIndexHandler.get_fx_rate_index_value (h : FxRateIndexHandler)
    (code : String) (use_scenario : Bool) : Except String ℝ :=
  match lookupA h.fx_rate_index_values code with
  | none => .error code
  | some base =>
    if use_scenario then
      match lookupA h.scenario code with
      | some v => .ok v
      | none => .error code
    else .ok base

/-- Source `market_data_pending.MarketData.get_zero_coupon_curve`: raises when the
curve code is not a key of the base store, otherwise returns the scenario or
base tuple per the flag. -/
def get_zero_coupon_curve (ch : CurveHandler) (curve_code : String)
    (use_scenario : Bool) : Except String CurveEntry :=
  match lookupA ch.zero_coupon_curves curve_code with
  | none => .error curve_code
  | some base =>
    if use_scenario then
      match lookupA ch.scenario curve_code with
      | some e => .ok e
      | none => .error curve_code
    else .ok base

/-- Source `front_desk_config.contrapartes_col_usd`: RUT → name of the
counterparties whose deals are collateralized in USD. -/
def contrapartes_col_usd : List (String × String) :=
  [("97006000-6", "BCI"),
   ("97036000-K", "SANTANDER"),
   ("97023000-9", "ITAU CORPBANCA"),
   ("97018000-1", "SCOTIABANK"),
   ("97043000-8", "JP MORGAN"),
   ("463182828-6", "GOLDMAN"),
   ("404286240-7", "BBVA NY"),
   ("453423276-K", "MERRIL LYNCH INT LONDON"),
   ("99500410-0", "BANCO CONSORCIO"),
   ("99012000-5", "CIA SEG VIDA CONSORCIO NAC SEG VIDA S.A."),
   ("96772490-4", "CONSORCIO CORREDORES DE BOLSA"),
   ("97032000-8", "BANCO BILBAO VIZCAYA ARGENTARIA CHILE"),
   ("96579280-5", "CN LIFE COMPAÑIA DE SEGUROS DE VIDA S.A."),
   ("97004000-5", "BANCO DE CHILE"),
   ("97008000-7", "Citibank NA"),
   ("96519800-8", "BCI CORREDOR DE BOLSA S.A."),
   ("414935828-0", "CITIBANK NEW YORK")]

/-- Source `front_desk_config.crv_desc_col_usd`: discount-curve code per currency
for USD-collateralized deals; currencies outside the table raise `KeyError`. -/
def crv_desc_col_usd : Currency → Option String
  | .USD => some "CFF"
  | .CLP => some "CCLPCOLUSD"
  | .CLF => some "CCLFCOLUSD"
  | .EUR => some "CEURCOLUSD"
  | .CNY => some "CCNYCOLUSD"
  | .JPY => some "FWDJPY-__RIESGO__"
  | _ => none

/-- Source `front_desk_config.crv_desc_no_col`: discount-curve code per currency for
uncollateralized deals. -/
def crv_desc_no_col : Currency → Option String
  | .USD => some "CUSDCOLCLP"
  | .CLP => some "CICPCLP"
  | .CLF => some "CCLFCOLCLP"
  | .EUR => some "CEURCOLCLP"
  | .CNY => some "CCNYCOLCLP"
  | .JPY => some "FWDJPY-__RIESGO__"
  | _ => none

/-- Source `not_yet.py`: its `TypeOfLeg` enumeration as used by `GetM2MForLeg` and
`CalculaEstado`; modelled from the spec and the members dispatched on in
`not_yet.py` (its defining module is not under src). -/
inductive TypeOfLeg : Type
  | FIXED_RATE
  | FLOATING_RATE
  | FXFWD
  | ICPCLP
  | ICPCLF
  | SOFRINDX
  | SOFRRATE
deriving DecidableEq, Repr

/-- One coupon of a leg: start date, end date, settlement date and notional,
with dates embedded as day ordinals. -/
structure Cashflow where
  start_date : Int
  end_date : Int
  settlement_date : Int
  nominal : ℚ
deriving DecidableEq, Repr

/-- Modelled from the spec: the `OperationLeg` record consumed by
`not_yet.py` (its defining module is not under src). It carries the deal's
counterparty identifier, the leg's notional currency, the leg type and the
`qcfinancial` cashflow list (§3 Leg, §4.4). -/
structure OperationLeg where
  counterparty : String
  nominal_currency : Currency
  type_of_leg : TypeOfLeg
  qcf_leg : List Cashflow
deriving DecidableEq, Repr

/-- The configuration fields of `GetM2MForLeg` / `GetPresentValueForLeg` that
`__get_discount_curve` reads, plus the curve store they resolve codes in. -/
structure M2MConfig where
  sd : CurveHandler
  contrapartes : List (String × String)
  ignore_collateral : Bool
  use_scenario : Bool
deriving DecidableEq, Repr

/-- Source `GetM2MForLeg.__get_discount_curve` (identical in
`GetPresentValueForLeg`): pick the collateralized-in-USD curve table iff
collateral is not ignored and the counterparty is a USD-collateral one, else
the uncollateralized table; index by the leg's notional currency; resolve the
code in the store and keep the `qcf.ZeroCouponCurve` component. -/
def get_discount_curve (m : M2MConfig) (leg : OperationLeg) :
    Except String ZeroCouponCurve :=
  let curvaOpt :=
    if m.ignore_collateral = false ∧ (lookupA m.contrapartes leg.counterparty).isSome then
      crv_desc_col_usd leg.nominal_currency
    else
      crv_desc_no_col leg.nominal_currency
  match curvaOpt with
  | none => .error "unknown currency"
  | some curva => (get_zero_coupon_curve m.sd curva m.use_scenario).map Prod.snd

/-- Modelled from the spec: `OperationLeg.get_min_start_date` (not under
src) — the leg's earliest coupon start date (§4.5). -/
def OperationLeg.get_min_start_date (leg : OperationLeg) : Option Int :=
  match leg.qcf_leg.map (·.start_date) with
  | [] => none
  | x :: xs => some (xs.foldl min x)

/-- Modelled from the spec: `OperationLeg.get_max_end_date` (not under
src) — the leg's latest coupon end date (§4.5). -/
def OperationLeg.get_max_end_date (leg : OperationLeg) : Option Int :=
  match leg.qcf_leg.map (·.end_date) with
  | [] => none
  | x :: xs => some (xs.foldl max x)

/-- Modelled from the spec: `OperationLeg.get_current_cashflow` (not under
src) — the coupon whose window `start_date ≤ d < end_date` contains the
process date, the "current (accruing)" coupon of §4.5; `none` when no coupon
is current (the Python lookup raises). -/
def OperationLeg.get_current_cashflow (leg : OperationLeg) (d : Int) : Option Cashflow :=
  (leg.qcf_leg.filter (fun c => decide (c.start_date ≤ d) && decide (d < c.end_date))).head?

/-- The amount selected by `CalculaEstado.__capital_vigente` before its
reporting-currency conversion: `simple_cashflow` (0) for FX-forward legs via
the `switcher`, else `other_cashflow`'s three-way branch on the process
date against the leg's first start and last end date. `none` marks the
branches where the Python helpers raise (empty leg, no current coupon). -/
def capital_vigente_amount (process_date : Int) (leg : OperationLeg) : Option ℚ :=
  if leg.type_of_leg = TypeOfLeg.FXFWD then some 0
  else
    match leg.get_min_start_date, leg.get_max_end_date with
    | some start_date, some end_date =>
      if process_date < start_date then (leg.qcf_leg.head?).map (·.nominal)
      else if process_date < end_date then
        (leg.get_current_cashflow process_date).map (·.nominal)
      else some 0
    | _, _ => none

/-- Modelled from the spec: `amount_to_clp` (not under src) converts an
amount to the reporting currency by multiplying by the currency's FX index
value at the process date (§4.5, §4.4 step 4). -/
def amount_to_clp (amount : ℚ) (fx_index_value : ℚ) : ℚ :=
  amount * fx_index_value

/-- Source `CalculaEstado.__capital_vigente`: the selected amount converted to CLP;
`fx_index_value` stands for the external FX lookup at the process date. -/
def capital_vigente (process_date : Int) (leg : OperationLeg) (fx_index_value : ℚ) :
    Option ℚ :=
  (capital_vigente_amount process_date leg).map (fun a => amount_to_clp a fx_index_value)

/-- Source `front_desk_config.synth_fx_rate_index_names`. -/
def synth_fx_rate_index_names : List String :=
  ["OBS2_UF0", "OBS1_UF0", "OBS0_UF0"]

/-- The slice of `market_data_pending.MarketData` that `get_index_value`
reads: business calendars (a calendar is its external `shift` function,
date ↦ shifted date) and the historical index series, a date-indexed
`DataFrame` per index code. -/
structure MarketData where
  calendars : List (String × (Int → Int → Int))
  historic_index_values : List (String × List (Int × ℚ))

/-- The non-synthetic branch of `MarketData.get_index_value`: the
`try/except` around `historic_index_values[code][0].loc[date].value` maps
every failure (unknown code or date) to `0.0`. -/
def get_index_value_raw (md : MarketData) (which_date : Int) (index_code : String) : ℚ :=
  match lookupA md.historic_index_values index_code with
  | none => 0
  | some series =>
    match lookupA series which_date with
    | none => 0
    | some v => v

/-- One entry of `__get_synth_index_value`'s `private_config`; the
composition of all three entries is `val1 / val2`. -/
structure SynthParams where
  calendar : String
  index1 : String
  index1_days : Int
  index2 : String
  index2_days : Int
deriving DecidableEq, Repr

/-- The `private_config` table of `MarketData.__get_synth_index_value`. -/
def private_config : String → Option SynthParams
  | "OBS2_UF0" => some ⟨"NY-SCL", "USDOBS", -2, "UF", 0⟩
  | "OBS1_UF0" => some ⟨"NY-SCL", "USDOBS", -1, "UF", 0⟩
  | "OBS0_UF0" => some ⟨"NY-SCL", "USDOBS", 0, "UF", 0⟩
  | _ => none

/-- Source `MarketData.__get_synth_index_value`: shift the requested date with the
configured calendar, resolve both underlying indices (the source recurses
into `get_index_value`, which for the non-synthetic codes `USDOBS` and `UF`
is the raw historical lookup), and divide; when either underlying is not
strictly positive it raises `ValueError` ("Index ... not found") instead of
returning a value. Error payloads carry the offending code. -/
def get_synth_index_value (md : MarketData) (which_date : Int) (which_index : String) :
    Except String ℚ :=
  match private_config which_index with
  | none => .error which_index
  | some p =>
    match lookupA md.calendars p.calendar with
    | none => .error p.calendar
    | some shift =>
      let index1 := get_index_value_raw md (shift which_date p.index1_days) p.index1
      let index2 := get_index_value_raw md (shift which_date p.index2_days) p.index2
      if 0 < index1 ∧ 0 < index2 then .ok (index1 / index2)
      else .error which_index

/-- Source `MarketData.get_index_value`: synthetic codes go through the composition
rule, every other code through the defaulting historical lookup. -/
def get_index_value (md : MarketData) (which_date : Int) (index_code : String) :
    Except String ℚ :=
  if index_code ∈ synth_fx_rate_index_names then
    get_synth_index_value md which_date index_code
  else .ok (get_index_value_raw md which_date index_code)

/-- The value the snapshot's historical series holds for a code and date,
`none` when the series has no value there. -/
def series_value (md : MarketData) (index_code : String) (which_date : Int) : Option ℚ :=
  (lookupA md.historic_index_values index_code).bind (fun s => lookupA s which_date)

/-- Source `operations.LegModel`: leg number plus the cashflows of the
`qcfinancial` leg the generator builds. -/
structure LegModel where
  leg_number : Nat
  cashflows : List Cashflow
deriving DecidableEq, Repr

/-- Source `operations.LegModel.get_current_cashflow`: filter the leg's cashflows to
those whose window `start_date ≤ d < end_date` contains the date and take
element `[0]`; `none` models the `IndexError` the unguarded `[0]` raises on
an empty filter result. -/
def LegModel.get_current_cashflow (leg : LegModel) (d : Int) : Option Cashflow :=
  (leg.cashflows.filter (fun c => decide (c.start_date ≤ d) && decide (d < c.end_date))).head?

/-- A deal's legs (`operation.legs` in `settlements.get_settlements`). -/
structure Operation where
  legs : List LegModel
deriving DecidableEq, Repr

/-- The `try`-wrapped inner loop of `settlements.get_settlements` for one
deal: collect the numbers of legs whose current cashflow ends on or before
the settlement date; an `IndexError` from `get_current_cashflow` aborts the
loop (`false`), keeping the leg numbers collected before it. -/
def collect_settling_legs (process_date settlement_date : Int) :
    List LegModel → List Nat × Bool
  | [] => ([], true)
  | l :: ls =>
    match l.get_current_cashflow process_date with
    | none => ([], false)
    | some c =>
      let r := collect_settling_legs process_date settlement_date ls
      (if c.end_date ≤ settlement_date then l.leg_number :: r.1 else r.1, r.2)

/-- Source `settlements.get_settlements`: per deal, run the collection loop; a deal
whose loop raised is appended to the bad-deal list, a deal with a nonempty
leg set is appended to the settling-operations list, and in either case the
remaining deals are still processed. -/
def get_settlements (process_date settlement_date : Int) :
    List (String × Operation) → List (String × List Nat) × List String
  | [] => ([], [])
  | (deal_number, operation) :: rest =>
    let r := collect_settling_legs process_date settlement_date operation.legs
    let tail := get_settlements process_date settlement_date rest
    (if r.1 = [] then tail.1 else (deal_number, r.1) :: tail.1,
     if r.2 then tail.2 else deal_number :: tail.2)

/-- Source `CurveHandler.get_scenario`. -/
def CurveHandler.get_scenario (h : CurveHandler) : List (String × CurveEntry) :=
  h.scenario

/-- C1: after `add_parallel_shift(s, curves)`, every store curve named in
`curves` appears in the scenario view with the same tenors, every rate equal
to the base rate plus `s`, and the rebuilt interpolant carrying the same
tenors, the shifted rates and the base curve's day-count/compounding
convention; every store curve not named appears unchanged, equal to its base
entry. -/
theorem add_parallel_shift_spec (h : CurveHandler) (s : ℚ) (curves : List String)
    (code : String) (hnd : (keys h.zero_coupon_curves).Nodup) :
    (∀ e : CurveEntry, (code, e) ∈ h.zero_coupon_curves → code ∈ curves →
      lookupA (CurveHandler.add_parallel_shift s curves h).scenario code =
        some (⟨e.1.rows.map (fun r => (r.1, r.2 + s))⟩,
          ⟨e.1.rows.map Prod.fst, (e.1.rows.map Prod.snd).map (fun v => v + s),
            e.2.yf, e.2.wf⟩))
    ∧ (code ∈ keys h.zero_coupon_curves → code ∉ curves →
      lookupA (CurveHandler.add_parallel_shift s curves h).scenario code =
        lookupA h.zero_coupon_curves code) := by
  constructor
  · intro e hm hc
    have h1 := mapLoop_lookup_mem (parallelStep s curves) h.zero_coupon_curves
      h.scenario code e hnd hm
    rw [CurveHandler.add_parallel_shift] at *
    rw [h1]
    simp [parallelStep, hc, build_zero_coupon_curve, List.map_map, Function.comp]
  · intro hk hc
    obtain ⟨e, hm⟩ := exists_mem_of_mem_keys hk
    have h1 := mapLoop_lookup_mem (parallelStep s curves) h.zero_coupon_curves
      h.scenario code e hnd hm
    have h2 : parallelStep s curves code e = e := by simp [parallelStep, hc]
    rw [CurveHandler.add_parallel_shift, h1, h2, lookupA_eq_of_mem hnd hm]

/-- Base-curve entry used in the concrete scenario checks. -/
def xEntry : CurveEntry :=
  (⟨[(30, 1/100), (90, 2/100)]⟩, ⟨[30, 90], [1/100, 2/100], .act360, .lin⟩)

/-- Base-curve entry used in the concrete scenario checks. -/
def yEntry : CurveEntry :=
  (⟨[(30, 3/100)]⟩, ⟨[30], [3/100], .act360, .com⟩)

/-- A two-curve store as built once per process date. -/
def c1_handler : CurveHandler :=
  CurveHandler.init [("X", xEntry), ("Y", yEntry)]

/-- Witness for C1: a +1bp shift of curve X in a two-curve store moves every
X rate by the shift and leaves Y aliased to its base entry. -/
theorem add_parallel_shift_spec_witness :
    ("X", xEntry) ∈ c1_handler.zero_coupon_curves
    ∧ lookupA (CurveHandler.add_parallel_shift (1/100) ["X"] c1_handler).scenario "X" =
      some (⟨xEntry.1.rows.map (fun r => (r.1, r.2 + 1/100))⟩,
        ⟨xEntry.1.rows.map Prod.fst, (xEntry.1.rows.map Prod.snd).map (fun v => v + 1/100),
          xEntry.2.yf, xEntry.2.wf⟩)
    ∧ lookupA (CurveHandler.add_parallel_shift (1/100) ["X"] c1_handler).scenario "Y" =
      lookupA c1_handler.zero_coupon_curves "Y" := by
  refine ⟨List.mem_cons_self _ _, ?_, ?_⟩
  · exact (add_parallel_shift_spec c1_handler (1/100) ["X"] "X" (by decide)).1
      xEntry (List.mem_cons_self _ _) (by decide)
  · exact (add_parallel_shift_spec c1_handler (1/100) ["X"] "Y" (by decide)).2
      (by decide) (by decide)

/-- C2: no scenario-applying call modifies the base data — after
`add_parallel_shift`, `move_tenor_of_curve`, `apply_additive_scenario` and
`apply_exp_scenario` the base curve mapping and the base FX mapping are the
ones from before the call (each method copies the base `DataFrame` before
mutating and writes only `self._scenario`). -/
theorem scenario_calls_preserve_base (h : CurveHandler) (fh : FxRateIndexHandler)
    (s s2 : ℚ) (curves : List String) (index : Nat) (curve : String)
    (scens : List (String × List (String × ℚ))) (fxscen : List (String × ℝ)) :
    (CurveHandler.add_parallel_shift s curves h).zero_coupon_curves =
      h.zero_coupon_curves
    ∧ ((CurveHandler.move_tenor_of_curve s2 index curve h).1).zero_coupon_curves =
      h.zero_coupon_curves
    ∧ ((CurveHandler.apply_additive_scenario scens h).1).zero_coupon_curves =
      h.zero_coupon_curves
    ∧ (FxRateIndexHandler.apply_exp_scenario fxscen fh).fx_rate_index_values =
      fh.fx_rate_index_values :=
  ⟨rfl, rfl, rfl, rfl⟩

/-- Single-curve store for the unknown-code check. -/
def c4_handler : CurveHandler :=
  CurveHandler.init [("A", (⟨[(30, 1/100)]⟩, ⟨[30], [1/100], .act360, .lin⟩))]

/-- C4 evaluated at the failing input: `add_parallel_shift(0.0001, ["B"])`
with `"B"` not a key of the store raises nothing (the embedded method is
total) and returns the scenario view with every curve aliased to its base
entry — contradicting both the claim and the method's own docstring, which
promises an exception for unknown codes. -/
theorem add_parallel_shift_unknown_code_no_error :
    lookupA c4_handler.zero_coupon_curves "B" = none
    ∧ (CurveHandler.add_parallel_shift (1/10000) ["B"] c4_handler).scenario =
      c4_handler.zero_coupon_curves :=
  ⟨rfl, rfl⟩

/-- Decidable size check for one curve against an additive scenario map:
`true` when the curve is not named or when the named scenario has exactly
the curve's vertex count. -/
def sizeOkB (scens : List (String × List (String × ℚ))) (curve : String)
    (e : CurveEntry) : Bool :=
  match lookupA scens curve with
  | none => true
  | some sc => sc.length == e.1.rows.length

theorem additiveStep_ok_of_sizeOkB (scens : List (String × List (String × ℚ)))
    (curve : String) (e : CurveEntry) (hb : sizeOkB scens curve e = true) :
    additiveStep scens curve e = .ok (additiveOkEntry scens curve e) := by
  apply additiveStep_ok_of_size
  intro sc hsc
  unfold sizeOkB at hb
  rw [hsc] at hb
  have hb2 : (sc.length == e.1.rows.length) = true := hb
  exact eq_of_beq hb2

/-- Store entry for curve A in the additive-scenario runs. -/
def c3_entryA : CurveEntry :=
  (⟨[(30, 1/100)]⟩, ⟨[30], [1/100], .act360, .lin⟩)

/-- Store entry for curve B in the additive-scenario runs. -/
def c3_entryB : CurveEntry :=
  (⟨[(30, 2/100)]⟩, ⟨[30], [2/100], .act360, .lin⟩)

/-- A two-curve store whose insertion order puts A before B. -/
def c3_handler : CurveHandler :=
  CurveHandler.init [("A", c3_entryA), ("B", c3_entryB)]

/-- An additive scenario that matches A's vertex count (1) but gives B two
vertices against its one. -/
def c3_scens : List (String × List (String × ℚ)) :=
  [("A", [("1M", 1/100)]), ("B", [("1M", 1/100), ("2M", 1/100)])]

/-- C3 is refuted at this input: the mismatched curve B raises the
`ValueError`, but the scenario view is not the prior view — curve A, iterated
before B, already holds its shifted entry when the call fails. -/
theorem apply_additive_scenario_not_atomic :
    (CurveHandler.apply_additive_scenario c3_scens c3_handler).2 = some "B"
    ∧ lookupA ((CurveHandler.apply_additive_scenario c3_scens c3_handler).1).scenario "A" ≠
      lookupA c3_handler.scenario "A" := by
  constructor
  · rfl
  · intro heq
    have h1 : lookupA ((CurveHandler.apply_additive_scenario c3_scens c3_handler).1).scenario "A" =
        some (⟨[(30, 1/100 + 1/100)]⟩, ⟨[30], [1/100 + 1/100], .act360, .lin⟩) := rfl
    have h2 : lookupA c3_handler.scenario "A" = some c3_entryA := rfl
    rw [h1, h2] at heq
    rw [c3_entryA] at heq
    simp only [Option.some.injEq, Prod.mk.injEq, CurveData.mk.injEq, List.cons.injEq] at heq
    have : (1 : ℚ)/100 + 1/100 = 1/100 := heq.1.1.2
    norm_num at this

/-- C3 (amended): when a curve named in the scenario map has a vertex count
different from the store's, `apply_additive_scenario` raises the error, but
atomicity fails in one direction: curves iterated before the first offending
curve have their recomputed scenario entries committed, while the offending
curve and every later curve keep their prior scenario entries. -/
theorem apply_additive_scenario_amended (h : CurveHandler)
    (scens : List (String × List (String × ℚ))) (pre : List (String × CurveEntry))
    (cb : String) (eb : CurveEntry) (post : List (String × CurveEntry))
    (sc : List (String × ℚ))
    (hsplit : h.zero_coupon_curves = pre ++ (cb, eb) :: post)
    (hpre : ∀ p ∈ pre, sizeOkB scens p.1 p.2 = true)
    (hsc : lookupA scens cb = some sc)
    (hbad : sc.length ≠ eb.1.rows.length) :
    (CurveHandler.apply_additive_scenario scens h).2 = some cb
    ∧ (∀ p ∈ pre, (keys pre).Nodup →
        lookupA ((CurveHandler.apply_additive_scenario scens h).1).scenario p.1 =
          some (additiveOkEntry scens p.1 p.2))
    ∧ (∀ code, code ∉ keys pre →
        lookupA ((CurveHandler.apply_additive_scenario scens h).1).scenario code =
          lookupA h.scenario code) := by
  have hpre2 : ∀ p ∈ pre, additiveStep scens p.1 p.2 = .ok (additiveOkEntry scens p.1 p.2) :=
    fun p hp => additiveStep_ok_of_sizeOkB _ _ _ (hpre p hp)
  have hb : additiveStep scens cb eb = .error cb := by
    unfold additiveStep
    rw [hsc]
    simp [hbad]
  have hloop := exceptLoop_append_error (additiveStep scens) (additiveOkEntry scens)
    pre cb eb post h.scenario cb hpre2 hb
  refine ⟨?_, ?_, ?_⟩
  · show (exceptLoop (additiveStep scens) h.zero_coupon_curves h.scenario).2 = some cb
    rw [hsplit, hloop]
  · intro p hp hnd
    show lookupA (exceptLoop (additiveStep scens) h.zero_coupon_curves h.scenario).1 p.1 =
      some (additiveOkEntry scens p.1 p.2)
    rw [hsplit, hloop]
    exact mapLoop_lookup_mem _ _ _ _ _ hnd hp
  · intro code hcode
    show lookupA (exceptLoop (additiveStep scens) h.zero_coupon_curves h.scenario).1 code =
      lookupA h.scenario code
    rw [hsplit, hloop]
    exact mapLoop_lookup_not_mem _ _ _ _ hcode

/-- Witness for the amended C3: in the A-then-B store, the failing call
reports B, commits A's shifted entry, and leaves B's prior entry. -/
theorem apply_additive_scenario_amended_witness :
    (CurveHandler.apply_additive_scenario c3_scens c3_handler).2 = some "B"
    ∧ lookupA ((CurveHandler.apply_additive_scenario c3_scens c3_handler).1).scenario "A" =
      some (additiveOkEntry c3_scens "A" c3_entryA)
    ∧ lookupA ((CurveHandler.apply_additive_scenario c3_scens c3_handler).1).scenario "B" =
      lookupA c3_handler.scenario "B" := by
  obtain ⟨h1, h2, h3⟩ := apply_additive_scenario_amended c3_handler c3_scens
    [("A", c3_entryA)] "B" c3_entryB [] [("1M", 1/100), ("2M", 1/100)]
    rfl (by decide) rfl (by decide)
  exact ⟨h1, h2 _ (List.mem_cons_self _ _) (by decide), h3 "B" (by decide)⟩

/-- C5: after `apply_exp_scenario(m)` every registered FX index holds its
base value times `exp` of its scenario return, an index absent from `m`
defaults to return 0 and so keeps its base value, and the empty scenario map
leaves every index at its base value. -/
theorem apply_exp_scenario_spec (fh : FxRateIndexHandler) (m : List (String × ℝ))
    (code : String) (v : ℝ) (hnd : (keys fh.fx_rate_index_values).Nodup)
    (hm : (code, v) ∈ fh.fx_rate_index_values) :
    lookupA (FxRateIndexHandler.apply_exp_scenario m fh).scenario code =
      some (v * Real.exp ((lookupA m code).getD 0))
    ∧ (lookupA m code = none →
      lookupA (FxRateIndexHandler.apply_exp_scenario m fh).scenario code = some v)
    ∧ lookupA (FxRateIndexHandler.apply_exp_scenario [] fh).scenario code = some v := by
  have hmain : ∀ m2 : List (String × ℝ),
      lookupA (FxRateIndexHandler.apply_exp_scenario m2 fh).scenario code =
        some (v * Real.exp ((lookupA m2 code).getD 0)) := by
    intro m2
    exact mapLoop_lookup_mem (expStep m2) fh.fx_rate_index_values fh.scenario code v hnd hm
  refine ⟨hmain m, ?_, ?_⟩
  · intro h0
    rw [hmain m, h0]
    simp
  · rw [hmain []]
    simp [lookupA_nil]

/-- An FX store with a single registered index. -/
noncomputable def c5_handler : FxRateIndexHandler :=
  FxRateIndexHandler.init [("USDCLP_RC", 800)]

/-- Witness for C5: a return of 1 scales the dollar index by `exp 1`; the
empty scenario map leaves it at its base value. -/
theorem apply_exp_scenario_spec_witness :
    lookupA (FxRateIndexHandler.apply_exp_scenario [("USDCLP_RC", 1)] c5_handler).scenario
      "USDCLP_RC" = some (800 * Real.exp ((lookupA [("USDCLP_RC", (1 : ℝ))] "USDCLP_RC").getD 0))
    ∧ lookupA (FxRateIndexHandler.apply_exp_scenario [] c5_handler).scenario
      "USDCLP_RC" = some 800 := by
  have h := apply_exp_scenario_spec c5_handler [("USDCLP_RC", 1)] "USDCLP_RC" 800
    (by decide) (List.mem_cons_self _ _)
  exact ⟨h.1, h.2.2⟩

theorem mapLoop_lookup_idem {β : Type} (f : String → β → β)
    (base scen : List (String × β)) (code : String) (hnd : (keys base).Nodup) :
    lookupA (mapLoop f base (mapLoop f base scen)) code =
      lookupA (mapLoop f base scen) code := by
  by_cases hk : code ∈ keys base
  · obtain ⟨e, hm⟩ := exists_mem_of_mem_keys hk
    rw [mapLoop_lookup_mem f base (mapLoop f base scen) code e hnd hm,
      mapLoop_lookup_mem f base scen code e hnd hm]
  · rw [mapLoop_lookup_not_mem f base (mapLoop f base scen) code hk]

/-- C6: each scenario method recomputes the scenario view from the base data,
so applying the same input twice leaves the view of the single application —
last-write-wins, never accumulation: this holds for `add_parallel_shift`,
for `apply_additive_scenario` on inputs whose vertex counts all match, and
for `apply_exp_scenario`. -/
theorem scenario_methods_idempotent :
    (∀ (h : CurveHandler) (s : ℚ) (curves : List String) (code : String),
      (keys h.zero_coupon_curves).Nodup →
      lookupA ((CurveHandler.add_parallel_shift s curves
          (CurveHandler.add_parallel_shift s curves h)).scenario) code =
        lookupA ((CurveHandler.add_parallel_shift s curves h).scenario) code)
    ∧ (∀ (h : CurveHandler) (scens : List (String × List (String × ℚ))) (code : String),
      (keys h.zero_coupon_curves).Nodup →
      (∀ p ∈ h.zero_coupon_curves, sizeOkB scens p.1 p.2 = true) →
      lookupA (((CurveHandler.apply_additive_scenario scens
          (CurveHandler.apply_additive_scenario scens h).1).1).scenario) code =
        lookupA (((CurveHandler.apply_additive_scenario scens h).1).scenario) code)
    ∧ (∀ (fh : FxRateIndexHandler) (m : List (String × ℝ)) (code : String),
      (keys fh.fx_rate_index_values).Nodup →
      lookupA ((FxRateIndexHandler.apply_exp_scenario m
          (FxRateIndexHandler.apply_exp_scenario m fh)).scenario) code =
        lookupA ((FxRateIndexHandler.apply_exp_scenario m fh).scenario) code) := by
  refine ⟨?_, ?_, ?_⟩
  · intro h s curves code hnd
    exact mapLoop_lookup_idem (parallelStep s curves) h.zero_coupon_curves h.scenario code hnd
  · intro h scens code hnd hval
    have hok : ∀ p ∈ h.zero_coupon_curves,
        additiveStep scens p.1 p.2 = .ok (additiveOkEntry scens p.1 p.2) :=
      fun p hp => additiveStep_ok_of_sizeOkB _ _ _ (hval p hp)
    have hl1 := exceptLoop_eq_mapLoop (additiveStep scens) (additiveOkEntry scens)
      h.zero_coupon_curves h.scenario hok
    have hl2 := exceptLoop_eq_mapLoop (additiveStep scens) (additiveOkEntry scens)
      h.zero_coupon_curves
      (mapLoop (additiveOkEntry scens) h.zero_coupon_curves h.scenario) hok
    show lookupA (exceptLoop (additiveStep scens) h.zero_coupon_curves
        (exceptLoop (additiveStep scens) h.zero_coupon_curves h.scenario).1).1 code =
      lookupA (exceptLoop (additiveStep scens) h.zero_coupon_curves h.scenario).1 code
    rw [hl1]
    show lookupA (exceptLoop (additiveStep scens) h.zero_coupon_curves
        (mapLoop (additiveOkEntry scens) h.zero_coupon_curves h.scenario)).1 code =
      lookupA (mapLoop (additiveOkEntry scens) h.zero_coupon_curves h.scenario) code
    rw [hl2]
    exact mapLoop_lookup_idem (additiveOkEntry scens) h.zero_coupon_curves h.scenario code hnd
  · intro fh m code hnd
    exact mapLoop_lookup_idem (expStep m) fh.fx_rate_index_values fh.scenario code hnd

/-- Witness for C6: idempotence instantiated on the concrete curve store and
FX store of the earlier checks, with the valid single-vertex additive
scenario for curve A only. -/
theorem scenario_methods_idempotent_witness :
    lookupA ((CurveHandler.add_parallel_shift (1/100) ["X"]
        (CurveHandler.add_parallel_shift (1/100) ["X"] c1_handler)).scenario) "X" =
      lookupA ((CurveHandler.add_parallel_shift (1/100) ["X"] c1_handler).scenario) "X"
    ∧ lookupA (((CurveHandler.apply_additive_scenario [("A", [("1M", 1/100)])]
        (CurveHandler.apply_additive_scenario [("A", [("1M", 1/100)])] c3_handler).1).1).scenario) "A" =
      lookupA (((CurveHandler.apply_additive_scenario [("A", [("1M", 1/100)])] c3_handler).1).scenario) "A"
    ∧ lookupA ((FxRateIndexHandler.apply_exp_scenario [("USDCLP_RC", 1)]
        (FxRateIndexHandler.apply_exp_scenario [("USDCLP_RC", 1)] c5_handler)).scenario) "USDCLP_RC" =
      lookupA ((FxRateIndexHandler.apply_exp_scenario [("USDCLP_RC", 1)] c5_handler).scenario) "USDCLP_RC" := by
  refine ⟨?_, ?_, ?_⟩
  · exact scenario_methods_idempotent.1 c1_handler (1/100) ["X"] "X" (by decide)
  · exact scenario_methods_idempotent.2.1 c3_handler [("A", [("1M", 1/100)])] "A"
      (by decide) (by decide)
  · exact scenario_methods_idempotent.2.2 c5_handler [("USDCLP_RC", 1)] "USDCLP_RC" (by decide)

/-- C7: when collateral is not ignored and the leg's counterparty is in the
USD-collateral set, the discount curve is the store's curve for the
collateralized-in-USD table entry of the leg's notional currency; in every
other case it is the store's curve for the uncollateralized table entry of
that currency. -/
theorem get_discount_curve_spec (m : M2MConfig) (leg : OperationLeg) :
    (∀ curva, m.ignore_collateral = false →
      (lookupA m.contrapartes leg.counterparty).isSome = true →
      crv_desc_col_usd leg.nominal_currency = some curva →
      get_discount_curve m leg =
        (get_zero_coupon_curve m.sd curva m.use_scenario).map Prod.snd)
    ∧ (∀ curva, (m.ignore_collateral = true ∨ lookupA m.contrapartes leg.counterparty = none) →
      crv_desc_no_col leg.nominal_currency = some curva →
      get_discount_curve m leg =
        (get_zero_coupon_curve m.sd curva m.use_scenario).map Prod.snd) := by
  constructor
  · intro curva hig hcp hcur
    simp [get_discount_curve, hig, hcp, hcur]
  · intro curva hcase hcur
    have hcond : ¬(m.ignore_collateral = false ∧
        (lookupA m.contrapartes leg.counterparty).isSome = true) := by
      rcases hcase with h1 | h1
      · intro hc
        rw [h1] at hc
        simp at hc
      · intro hc
        rw [h1] at hc
        simp at hc
    simp [get_discount_curve, hcond, hcur]

/-- Curve store holding the USD discount curves of both tables. -/
def c7_store : CurveHandler :=
  CurveHandler.init [("CFF", c3_entryA), ("CUSDCOLCLP", c3_entryB)]

/-- Valuation configuration that honours collateral. -/
def c7_m2m : M2MConfig :=
  ⟨c7_store, contrapartes_col_usd, false, false⟩

/-- Valuation configuration that ignores collateral. -/
def c7_m2m_ignore : M2MConfig :=
  ⟨c7_store, contrapartes_col_usd, true, false⟩

/-- A USD leg facing a USD-collateral counterparty (BCI). -/
def c7_leg : OperationLeg :=
  ⟨"97006000-6", .USD, .FIXED_RATE, []⟩

/-- Witness for C7: the BCI leg discounts on CFF when collateral is honoured
and on CUSDCOLCLP when collateral is ignored. -/
theorem get_discount_curve_spec_witness :
    get_discount_curve c7_m2m c7_leg = .ok c3_entryA.2
    ∧ get_discount_curve c7_m2m_ignore c7_leg = .ok c3_entryB.2 := by
  constructor
  · have h := (get_discount_curve_spec c7_m2m c7_leg).1 "CFF" rfl (by decide) rfl
    exact h.trans rfl
  · have h := (get_discount_curve_spec c7_m2m_ignore c7_leg).2 "CUSDCOLCLP"
      (Or.inl rfl) rfl
    exact h.trans rfl

/-- C8: `capital_vigente` is the reporting-currency conversion of the
selected amount, and the selected amount is: always 0 for FX-forward legs;
otherwise the first cashflow's notional before the leg's earliest start
date, the current coupon's notional inside the active window, and 0 once the
process date reaches the latest end date (coupon windows being ordered,
`s ≤ e`). -/
theorem capital_vigente_spec (leg : OperationLeg) (d : Int) (fx : ℚ) :
    capital_vigente d leg fx = (capital_vigente_amount d leg).map (fun a => a * fx)
    ∧ (leg.type_of_leg = TypeOfLeg.FXFWD → capital_vigente_amount d leg = some 0)
    ∧ (leg.type_of_leg ≠ TypeOfLeg.FXFWD →
      ∀ s e, leg.get_min_start_date = some s → leg.get_max_end_date = some e →
        ((d < s → capital_vigente_amount d leg = (leg.qcf_leg.head?).map (·.nominal))
        ∧ (s ≤ d → d < e → capital_vigente_amount d leg =
            (leg.get_current_cashflow d).map (·.nominal))
        ∧ (s ≤ e → e ≤ d → capital_vigente_amount d leg = some 0))) := by
  refine ⟨rfl, ?_, ?_⟩
  · intro hf
    simp [capital_vigente_amount, hf]
  · intro hf s e hs he
    refine ⟨?_, ?_, ?_⟩
    · intro hd
      simp [capital_vigente_amount, hf, hs, he, hd]
    · intro h1 h2
      have hnd : ¬d < s := not_lt.mpr h1
      simp [capital_vigente_amount, hf, hs, he, hnd, h2]
    · intro h1 h2
      have hnd : ¬d < s := not_lt.mpr (le_trans h1 h2)
      have hne : ¬d < e := not_lt.mpr h2
      simp [capital_vigente_amount, hf, hs, he, hnd, hne]

/-- First coupon of the two-coupon fixed leg. -/
def c8_cf1 : Cashflow := ⟨0, 180, 182, 1000⟩

/-- Second coupon of the two-coupon fixed leg. -/
def c8_cf2 : Cashflow := ⟨180, 360, 362, 600⟩

/-- A two-coupon fixed-rate leg. -/
def c8_leg : OperationLeg := ⟨"CP1", .USD, .FIXED_RATE, [c8_cf1, c8_cf2]⟩

/-- An FX-forward-style leg. -/
def c8_legfx : OperationLeg := ⟨"CP1", .USD, .FXFWD, [c8_cf1]⟩

/-- Witness for C8: before the start the contractual 1000 is outstanding, in
the second coupon 600, after maturity 0, the FX-forward leg always reports 0,
and the CLP conversion multiplies the selected amount. -/
theorem capital_vigente_spec_witness :
    capital_vigente_amount (-5) c8_leg = some c8_cf1.nominal
    ∧ capital_vigente_amount 200 c8_leg = some c8_cf2.nominal
    ∧ capital_vigente_amount 400 c8_leg = some 0
    ∧ capital_vigente_amount 10 c8_legfx = some 0
    ∧ capital_vigente 400 c8_leg 900 =
      (capital_vigente_amount 400 c8_leg).map (fun a => a * 900) := by
  refine ⟨?_, ?_, ?_, ?_, ?_⟩
  · have h := ((capital_vigente_spec c8_leg (-5) 1).2.2 (by decide) 0 360
      (by decide) (by decide)).1 (by decide)
    exact h.trans rfl
  · have h := ((capital_vigente_spec c8_leg 200 1).2.2 (by decide) 0 360
      (by decide) (by decide)).2.1 (by decide) (by decide)
    exact h.trans rfl
  · exact ((capital_vigente_spec c8_leg 400 1).2.2 (by decide) 0 360
      (by decide) (by decide)).2.2 (by decide) (by decide)
  · exact (capital_vigente_spec c8_legfx 10 1).2.1 (by decide)
  · exact (capital_vigente_spec c8_leg 400 900).1

/-- C9 (amended): for every index code outside the synthetic-composition
list, `get_index_value` is the defaulting historical lookup, and in
particular returns `0.0` instead of raising whenever the snapshot's series
has no value for the code and date; the three synthetic codes instead raise
when an underlying index resolves to a non-positive value. -/
theorem get_index_value_missing_default (md : MarketData) (d : Int) (code : String)
    (hns : code ∉ synth_fx_rate_index_names) :
    get_index_value md d code = .ok (get_index_value_raw md d code)
    ∧ (series_value md code d = none → get_index_value md d code = .ok 0) := by
  have hbr : get_index_value md d code = .ok (get_index_value_raw md d code) := by
    unfold get_index_value
    rw [if_neg hns]
  refine ⟨hbr, ?_⟩
  intro h0
  have hz : get_index_value_raw md d code = 0 := by
    unfold get_index_value_raw
    unfold series_value at h0
    cases h1 : lookupA md.historic_index_values code with
    | none => rfl
    | some s =>
      rw [h1, Option.some_bind] at h0
      simp only [h0]
  rw [hbr, hz]

/-- A snapshot with the NY-SCL calendar (shift as plain day arithmetic) and
an empty historical series. -/
def c9_market : MarketData :=
  ⟨[("NY-SCL", fun d n => d + n)], []⟩

/-- C9 is refuted at this input: the synthetic code OBS0_UF0 has no value on
the (empty) historical series, yet `get_index_value` raises the `ValueError`
of the composition rule — it does not return `0.0`. -/
theorem get_index_value_synth_raises :
    series_value c9_market "OBS0_UF0" 0 = none
    ∧ get_index_value c9_market 0 "OBS0_UF0" = .error "OBS0_UF0" :=
  ⟨rfl, rfl⟩

/-- Witness for the amended C9: the non-synthetic UF code with no series
value resolves to `0.0` without failing. -/
theorem get_index_value_missing_default_witness :
    "UF" ∉ synth_fx_rate_index_names
    ∧ series_value c9_market "UF" 5 = none
    ∧ get_index_value c9_market 5 "UF" = .ok 0 :=
  ⟨by decide, rfl, (get_index_value_missing_default c9_market 5 "UF" (by decide)).2 rfl⟩

/-- C10: `get_current_cashflow` returns nothing (the `IndexError` of the
unguarded `[0]`) exactly when no cashflow window contains the date; the
per-deal loop of `get_settlements` succeeds exactly when every leg has a
current cashflow; and `get_settlements` returns, over all deals regardless
of earlier failures, exactly the failing deals in the bad-deal list and
exactly the deals with a nonempty settling-leg set in the operations list. -/
theorem get_settlements_spec :
    (∀ (leg : LegModel) (d : Int),
      (LegModel.get_current_cashflow leg d = none ↔
        ∀ c ∈ leg.cashflows, ¬(c.start_date ≤ d ∧ d < c.end_date)))
    ∧ (∀ (d sett : Int) (ls : List LegModel),
      ((collect_settling_legs d sett ls).2 = true ↔
        ∀ l ∈ ls, (LegModel.get_current_cashflow l d).isSome = true))
    ∧ (∀ (d sett : Int) (deals : List (String × Operation)),
      (get_settlements d sett deals).2 =
        (deals.filter (fun p => !(collect_settling_legs d sett p.2.legs).2)).map Prod.fst
      ∧ (get_settlements d sett deals).1 =
        deals.filterMap (fun p =>
          if (collect_settling_legs d sett p.2.legs).1 = [] then none
          else some (p.1, (collect_settling_legs d sett p.2.legs).1))) := by
  refine ⟨?_, ?_, ?_⟩
  · intro leg d
    unfold LegModel.get_current_cashflow
    rw [List.head?_eq_none_iff, List.filter_eq_nil_iff]
    simp
  · intro d sett ls
    induction ls with
    | nil => simp [collect_settling_legs]
    | cons l ls ih =>
      cases hcc : LegModel.get_current_cashflow l d with
      | none => simp [collect_settling_legs, hcc]
      | some c => simp [collect_settling_legs, hcc, ih]
  · intro d sett deals
    induction deals with
    | nil => exact ⟨rfl, rfl⟩
    | cons p rest ih =>
      cases p with
      | mk dn op =>
        constructor
        · rw [get_settlements, List.filter_cons]
          cases hok : (collect_settling_legs d sett op.legs).2 with
          | true => simp [hok, ih.1]
          | false => simp [hok, ih.1]
        · rw [get_settlements, List.filterMap_cons]
          by_cases hleg : (collect_settling_legs d sett op.legs).1 = []
          · simp [hleg, ih.2]
          · simp [hleg, ih.2]
